import Mathlib

/-!
Shallow embedding of `src/rust/src/main.rs` (rust-capstone-project), a one-shot
Bitcoin-regtest settlement pipeline: provision two wallets, fund the Miner by
mining 101 blocks, select one UTXO above 20 BTC, send 20 BTC to the Trader with
the input pinned to the selected UTXO, mine one confirming block, attribute the
confirmed transaction's outputs by wallet-ownership queries, and write a
ten-line report file.

Modelling conventions:
* The node (Bitcoin Core over RPC) is an external collaborator; every RPC
  response the program consumes is data supplied by a `NodeTrace`.  RPC
  transport failures are modelled only where the source inspects them
  (`load_wallet`); all other transport errors would uniformly propagate via
  `?` or `unwrap` and are not modelled.
* Amounts are `u64` satoshi values (`Nat` here).  The source converts them to
  `f64` BTC via `Amount::to_btc()` / `to_float_in(Bitcoin)`; this conversion is
  modelled exactly by `toBtc`, the correctly-rounded (round-to-nearest,
  ties-to-even) binary64 value of `s / 10^8`, represented as an exact rational.
  The model agrees with binary64 arithmetic for every amount below 2^53
  satoshis (Bitcoin's maximum money, 2.1 * 10^15 satoshis, is far below).
* Transaction / block identifiers are plain strings; `Txid::from_str` on a
  node-returned id string is assumed to succeed.
* `Address::from_script(script, Network::Regtest)` is library code outside the
  repository; a script value is modelled by the address form this derivation
  yields for it (`Script.regtestAddr`), `none` when the script has no address
  form.
* Rust panics (from `unwrap` / `assert!` / indexing) are `Failure.panicked`,
  distinct from an `Err` return (`Failure.rpc`).
-/

deriving instance DecidableEq for Except

namespace Capstone

/-- Round-to-nearest, ties-to-even of the rational `p / q` to an integer
(`p q : Nat`, `q > 0`).  This is the rounding used by binary64 arithmetic. -/
def roundNE (p q : Nat) : Nat :=
  let d := p / q
  let r := p % q
  if 2 * r < q then d
  else if q < 2 * r then d + 1
  else if d % 2 = 0 then d else d + 1

/-- Scaling target `2^52 * 10^8`, placing the significand of `s / 10^8` in
binary64 range `[2^52, 2^53)`. -/
def scaleBound : Nat := 2 ^ 52 * 10 ^ 8

/-- Fuel-bounded search for the least exponent `e` with
`scaleBound ≤ s * 2 ^ e`. -/
def scaleExpAux (s : Nat) : Nat → Nat → Nat
  | 0, e => e
  | fuel + 1, e => if scaleBound ≤ s * 2 ^ e then e else scaleExpAux s fuel (e + 1)

/-- Binary scaling exponent for `s / 10^8` (fuel 100 suffices for every
`s ≥ 1`, since `2^100 > scaleBound`). -/
def scaleExp (s : Nat) : Nat := scaleExpAux s 100 0

/-- Exact rational value of the binary64 number `Amount::to_btc()` returns for
an amount of `s` satoshis: the correctly rounded binary64 value of
`s / 10^8`. -/
def toBtc (s : Nat) : ℚ :=
  if s = 0 then 0
  else mkRat (roundNE (s * 2 ^ scaleExp s) (10 ^ 8)) (2 ^ scaleExp s)

/-! ### Rounding error bounds for `toBtc` -/

theorem roundNE_le (p q : Nat) (hq : 0 < q) :
    (roundNE p q : ℚ) ≤ (p : ℚ) / q + 1 / 2 := by
  have hqQ : (0 : ℚ) < q := by exact_mod_cast hq
  have hsplit : (p : ℚ) / q = ((p / q : Nat) : ℚ) + ((p % q : Nat) : ℚ) / q := by
    have h := Nat.div_add_mod p q
    field_simp
    push_cast
    nlinarith [h, (by exact_mod_cast congrArg (fun n : Nat => (n : ℚ)) h :
      (q : ℚ) * ((p / q : Nat) : ℚ) + ((p % q : Nat) : ℚ) = (p : ℚ))]
  have hr0 : (0 : ℚ) ≤ ((p % q : Nat) : ℚ) / q := by positivity
  simp only [roundNE]
  split_ifs with h1 h2 h3
  · -- 2 * r < q
    rw [hsplit]; linarith
  · -- q < 2 * r : result d + 1; need 1/2 ≤ r / q
    have hh : (q : ℚ) < 2 * ((p % q : Nat) : ℚ) := by exact_mod_cast h2
    have : (1 : ℚ) / 2 ≤ ((p % q : Nat) : ℚ) / q := by
      rw [div_le_div_iff (by norm_num) hqQ]; linarith
    rw [hsplit]; push_cast; linarith
  · -- tie, d even
    rw [hsplit]; linarith
  · -- tie, d odd : result d + 1; here 2 * r = q so r / q = 1/2
    have hge : ¬ 2 * (p % q) < q := h1
    have hle : ¬ q < 2 * (p % q) := h2
    have heq : 2 * (p % q) = q := by omega
    have heqQ : 2 * ((p % q : Nat) : ℚ) = (q : ℚ) := by exact_mod_cast heq
    have : ((p % q : Nat) : ℚ) / q = 1 / 2 := by
      rw [div_eq_iff (ne_of_gt hqQ)]; linarith
    rw [hsplit]; push_cast; linarith

theorem roundNE_ge (p q : Nat) (hq : 0 < q) :
    (p : ℚ) / q - 1 / 2 ≤ (roundNE p q : ℚ) := by
  have hqQ : (0 : ℚ) < q := by exact_mod_cast hq
  have hsplit : (p : ℚ) / q = ((p / q : Nat) : ℚ) + ((p % q : Nat) : ℚ) / q := by
    have h := Nat.div_add_mod p q
    field_simp
    push_cast
    nlinarith [h, (by exact_mod_cast congrArg (fun n : Nat => (n : ℚ)) h :
      (q : ℚ) * ((p / q : Nat) : ℚ) + ((p % q : Nat) : ℚ) = (p : ℚ))]
  have hrq : ((p % q : Nat) : ℚ) / q < 1 := by
    rw [div_lt_one hqQ]; exact_mod_cast Nat.mod_lt p hq
  simp only [roundNE]
  split_ifs with h1 h2 h3
  · -- 2 * r < q : result d; need r / q ≤ 1/2
    have hh : 2 * ((p % q : Nat) : ℚ) < (q : ℚ) := by exact_mod_cast h1
    have : ((p % q : Nat) : ℚ) / q ≤ 1 / 2 := by
      rw [div_le_div_iff hqQ (by norm_num)]; linarith
    rw [hsplit]; linarith
  · rw [hsplit]; push_cast; linarith
  · -- tie, d even : result d, r / q = 1/2
    have heq : 2 * (p % q) = q := by omega
    have heqQ : 2 * ((p % q : Nat) : ℚ) = (q : ℚ) := by exact_mod_cast heq
    have : ((p % q : Nat) : ℚ) / q = 1 / 2 := by
      rw [div_eq_iff (ne_of_gt hqQ)]; linarith
    rw [hsplit]; linarith
  · rw [hsplit]; push_cast; linarith

theorem scaleExpAux_spec (s : Nat) :
    ∀ fuel e, scaleBound ≤ s * 2 ^ (e + fuel) →
      scaleBound ≤ s * 2 ^ scaleExpAux s fuel e := by
  intro fuel
  induction fuel with
  | zero => intro e h; simpa [scaleExpAux] using h
  | succ f ih =>
    intro e h
    by_cases hc : scaleBound ≤ s * 2 ^ e
    · simpa [scaleExpAux, hc] using hc
    · simp only [scaleExpAux, hc, if_false]
      exact ih (e + 1) (by rw [show e + 1 + f = e + (f + 1) by omega]; exact h)

theorem scaleExp_spec (s : Nat) (hs : 1 ≤ s) :
    scaleBound ≤ s * 2 ^ scaleExp s := by
  apply scaleExpAux_spec
  calc scaleBound ≤ 2 ^ 100 := by decide
    _ = 1 * 2 ^ (0 + 100) := by norm_num
    _ ≤ s * 2 ^ (0 + 100) := Nat.mul_le_mul_right _ hs

theorem toBtc_upper (s : Nat) (hs : 1 ≤ s) :
    toBtc s ≤ (s : ℚ) / 10 ^ 8 + (s : ℚ) / (2 ^ 53 * 10 ^ 8) := by
  have hs0 : s ≠ 0 := by omega
  unfold toBtc
  rw [if_neg hs0]
  set e := scaleExp s with he
  rw [Rat.mkRat_eq_div]
  rw [show (((roundNE (s * 2 ^ e) (10 ^ 8) : Nat) : ℤ) : ℚ) =
      ((roundNE (s * 2 ^ e) (10 ^ 8) : Nat) : ℚ) by push_cast; ring]
  rw [show ((2 ^ e : Nat) : ℚ) = (2 : ℚ) ^ e by push_cast; ring]
  have hb : scaleBound ≤ s * 2 ^ e := scaleExp_spec s hs
  have hbQ : (scaleBound : ℚ) ≤ (s : ℚ) * 2 ^ e := by exact_mod_cast hb
  have h2e : (0 : ℚ) < 2 ^ e := by positivity
  have hround : (roundNE (s * 2 ^ e) (10 ^ 8) : ℚ) ≤ ((s * 2 ^ e : Nat) : ℚ) / 10 ^ 8 + 1 / 2 :=
    roundNE_le _ _ (by norm_num)
  have hcast : ((s * 2 ^ e : Nat) : ℚ) = (s : ℚ) * 2 ^ e := by push_cast; ring
  rw [hcast] at hround
  rw [div_le_iff h2e]
  have hgoal : (s : ℚ) * 2 ^ e / 10 ^ 8 + 1 / 2 ≤
      ((s : ℚ) / 10 ^ 8 + (s : ℚ) / (2 ^ 53 * 10 ^ 8)) * 2 ^ e := by
    have h1 : ((s : ℚ) / 10 ^ 8) * 2 ^ e = (s : ℚ) * 2 ^ e / 10 ^ 8 := by ring
    have hsb : (scaleBound : ℚ) = 2 ^ 52 * 10 ^ 8 := by norm_num [scaleBound]
    -- 1 / 2 ≤ (s / (2^53 * 10^8)) * 2^e  ⟺  2^53 * 10^8 ≤ 2 * s * 2^e
    have h2 : (1 : ℚ) / 2 ≤ (s : ℚ) / (2 ^ 53 * 10 ^ 8) * 2 ^ e := by
      rw [div_mul_eq_mul_div, div_le_div_iff (by norm_num) (by positivity)]
      calc (1 : ℚ) * (2 ^ 53 * 10 ^ 8) = 2 * (2 ^ 52 * 10 ^ 8) := by ring
        _ ≤ 2 * ((s : ℚ) * 2 ^ e) := by rw [← hsb]; linarith
        _ = (s : ℚ) * 2 ^ e * 2 := by ring
    linarith [h1, h2]
  linarith [hround, hgoal]

theorem toBtc_lower (s : Nat) (hs : 1 ≤ s) :
    (s : ℚ) / 10 ^ 8 - (s : ℚ) / (2 ^ 53 * 10 ^ 8) ≤ toBtc s := by
  have hs0 : s ≠ 0 := by omega
  unfold toBtc
  rw [if_neg hs0]
  set e := scaleExp s with he
  rw [Rat.mkRat_eq_div]
  rw [show (((roundNE (s * 2 ^ e) (10 ^ 8) : Nat) : ℤ) : ℚ) =
      ((roundNE (s * 2 ^ e) (10 ^ 8) : Nat) : ℚ) by push_cast; ring]
  rw [show ((2 ^ e : Nat) : ℚ) = (2 : ℚ) ^ e by push_cast; ring]
  have hb : scaleBound ≤ s * 2 ^ e := scaleExp_spec s hs
  have hbQ : (scaleBound : ℚ) ≤ (s : ℚ) * 2 ^ e := by exact_mod_cast hb
  have h2e : (0 : ℚ) < 2 ^ e := by positivity
  have hround : ((s * 2 ^ e : Nat) : ℚ) / 10 ^ 8 - 1 / 2 ≤ (roundNE (s * 2 ^ e) (10 ^ 8) : ℚ) :=
    roundNE_ge _ _ (by norm_num)
  have hcast : ((s * 2 ^ e : Nat) : ℚ) = (s : ℚ) * 2 ^ e := by push_cast; ring
  rw [hcast] at hround
  rw [le_div_iff h2e]
  have hsb : (scaleBound : ℚ) = 2 ^ 52 * 10 ^ 8 := by norm_num [scaleBound]
  have h2 : (1 : ℚ) / 2 ≤ (s : ℚ) / (2 ^ 53 * 10 ^ 8) * 2 ^ e := by
    rw [div_mul_eq_mul_div, div_le_div_iff (by norm_num) (by positivity)]
    calc (1 : ℚ) * (2 ^ 53 * 10 ^ 8) = 2 * (2 ^ 52 * 10 ^ 8) := by ring
      _ ≤ 2 * ((s : ℚ) * 2 ^ e) := by rw [← hsb]; linarith
      _ = (s : ℚ) * 2 ^ e * 2 := by ring
  have h1 : ((s : ℚ) / 10 ^ 8) * 2 ^ e = (s : ℚ) * 2 ^ e / 10 ^ 8 := by ring
  nlinarith [hround, h2, h1]

/-- Any amount at or below 20 BTC (`2 * 10^9` satoshis) has binary64 BTC value
at most `20`: the comparison `u.amount.to_btc() > 20.0` rejects it. -/
theorem toBtc_le_20 (s : Nat) (h : s ≤ 2 * 10 ^ 9) : toBtc s ≤ 20 := by
  rcases Nat.eq_zero_or_pos s with h0 | hpos
  · subst h0; simp [toBtc]
  rcases eq_or_lt_of_le h with heq | hlt
  · subst heq; decide
  · have hs1 : 1 ≤ s := hpos
    have hub := toBtc_upper s hs1
    have hsQ : (s : ℚ) ≤ 2 * 10 ^ 9 - 1 := by
      have : s ≤ 2 * 10 ^ 9 - 1 := by omega
      calc (s : ℚ) ≤ ((2 * 10 ^ 9 - 1 : Nat) : ℚ) := by exact_mod_cast this
        _ = 2 * 10 ^ 9 - 1 := by norm_num
    have hs0 : (0 : ℚ) ≤ (s : ℚ) := by positivity
    have hfin : ((2 : ℚ) * 10 ^ 9 - 1) / 10 ^ 8 + (2 * 10 ^ 9 - 1) / (2 ^ 53 * 10 ^ 8) ≤ 20 := by
      norm_num
    have hmono1 : (s : ℚ) / 10 ^ 8 ≤ (2 * 10 ^ 9 - 1) / 10 ^ 8 := by
      apply div_le_div_of_nonneg_right hsQ <;> norm_num
    have hmono2 : (s : ℚ) / (2 ^ 53 * 10 ^ 8) ≤ (2 * 10 ^ 9 - 1) / (2 ^ 53 * 10 ^ 8) := by
      apply div_le_div_of_nonneg_right hsQ <;> positivity
    linarith

/-- Any amount strictly above 20 BTC in satoshis has binary64 BTC value
strictly above `20`: the comparison `u.amount.to_btc() > 20.0` accepts it. -/
theorem toBtc_gt_20 (s : Nat) (h : 2 * 10 ^ 9 < s) : 20 < toBtc s := by
  have hs1 : 1 ≤ s := by omega
  have hlb := toBtc_lower s hs1
  have hsQ : (2 : ℚ) * 10 ^ 9 + 1 ≤ (s : ℚ) := by
    have : 2 * 10 ^ 9 + 1 ≤ s := by omega
    calc (2 : ℚ) * 10 ^ 9 + 1 = ((2 * 10 ^ 9 + 1 : Nat) : ℚ) := by norm_num
      _ ≤ (s : ℚ) := by exact_mod_cast this
  have hfin : (20 : ℚ) < ((2 : ℚ) * 10 ^ 9 + 1) / 10 ^ 8 - (2 * 10 ^ 9 + 1) / (2 ^ 53 * 10 ^ 8) := by
    rw [div_sub_div _ _ (by norm_num : (10 : ℚ) ^ 8 ≠ 0) (by positivity)]
    rw [lt_div_iff (by positivity)]
    norm_num
  have hmono1 : ((2 : ℚ) * 10 ^ 9 + 1) / 10 ^ 8 ≤ (s : ℚ) / 10 ^ 8 := by
    apply div_le_div_of_nonneg_right hsQ
    norm_num
  -- for the subtracted term we need the *upper* bound on the smaller value
  have hkey : ((2 : ℚ) * 10 ^ 9 + 1) * (1 / 10 ^ 8 - 1 / (2 ^ 53 * 10 ^ 8)) ≤
      (s : ℚ) * (1 / 10 ^ 8 - 1 / (2 ^ 53 * 10 ^ 8)) := by
    apply mul_le_mul_of_nonneg_right hsQ
    norm_num
  have hrw1 : ((2 : ℚ) * 10 ^ 9 + 1) * (1 / 10 ^ 8 - 1 / (2 ^ 53 * 10 ^ 8)) =
      ((2 : ℚ) * 10 ^ 9 + 1) / 10 ^ 8 - (2 * 10 ^ 9 + 1) / (2 ^ 53 * 10 ^ 8) := by ring
  have hrw2 : (s : ℚ) * (1 / 10 ^ 8 - 1 / (2 ^ 53 * 10 ^ 8)) =
      (s : ℚ) / 10 ^ 8 - (s : ℚ) / (2 ^ 53 * 10 ^ 8) := by ring
  rw [hrw1, hrw2] at hkey
  linarith

/-- The source's funding-selection test `u.amount.to_btc() > 20.0` holds
exactly when the satoshi amount strictly exceeds `20 * 10^8`. -/
theorem toBtc_gt20_iff (s : Nat) : 20 < toBtc s ↔ 2 * 10 ^ 9 < s := by
  constructor
  · intro h
    by_contra hle
    exact absurd h (not_lt.mpr (toBtc_le_20 s (by omega)))
  · exact toBtc_gt_20 s

/-! ### Data model (mirrors the RPC-level values the source consumes) -/

/-- A locking script, modelled by the address form that
`Address::from_script(script, Network::Regtest)` derives for it
(`none` when the library's derivation fails, e.g. a data-carrying script). -/
structure Script where
  regtestAddr : Option String
  deriving DecidableEq

/-- A transaction output: `value` in satoshis plus its locking script. -/
structure TxOut where
  value : Nat
  script_pubkey : Script
  deriving DecidableEq

/-- A transaction as the source reads it: its id and ordered outputs
(the source never inspects `confirmed_tx.input`). -/
structure Tx where
  txid : String
  output : List TxOut
  deriving DecidableEq

/-- A block as the source reads it: ordered transactions, the BIP34
coinbase-derived height (`bip34_block_height()` result, `none` on failure),
and the block hash. -/
structure Block where
  txdata : List Tx
  bip34Height : Option Nat
  block_hash : String
  deriving DecidableEq

/-- One `list_unspent` entry: source txid, output index, amount in satoshis. -/
structure Utxo where
  txid : String
  vout : Nat
  amount : Nat
  deriving DecidableEq

/-- Response of `get_address_info`: the `is_mine` field is optional in the RPC
schema and the source unwraps it. -/
structure AddressInfo where
  is_mine : Option Bool
  deriving DecidableEq

/-- Response of the generic `send` RPC. -/
structure SendResult where
  complete : Bool
  txid : String
  deriving DecidableEq

/-- Response of `load_wallet` / `create_wallet`. -/
structure LoadWalletResult where
  name : String
  warning : Option String
  deriving DecidableEq

/-- The part of the `get_transaction` response the source uses: the optional
signed fee, in satoshis. -/
structure GetTxResult where
  fee : Option Int
  deriving DecidableEq

/-- RPC error kinds the source distinguishes: `Error::JsonRpc(e)` (with its
display text) versus every other error variant. -/
inductive RpcError where
  | jsonRpc (msg : String)
  | other (msg : String)
  deriving DecidableEq

/-- How a run terminates abnormally: a Rust panic (`unwrap`, `assert!`,
out-of-bounds indexing) or an `Err` value propagated by `?` out of `main`. -/
inductive Failure where
  | panicked (msg : String)
  | rpc (e : RpcError)
  deriving DecidableEq

/-- The argument object the source's `send` helper builds for the generic
`send` RPC call (main.rs lines 34-40). -/
structure SendArgs where
  recipients : List (String × ℚ)
  conf_target : Option Nat
  estimate_mode : Option String
  fee_rate : Option ℚ
  inputs : List (String × Nat)
  deriving DecidableEq

/-- The wallet-lifecycle face of the node: responses to `load_wallet` and to
`create_wallet` with its four optional parameters. -/
structure WalletNode where
  load : String → Except RpcError LoadWalletResult
  create : String → Option Bool → Option Bool → Option String → Option Bool →
    Except RpcError LoadWalletResult

/-- All node responses one run of `main` consumes, in program order.  The node
is an external collaborator; a trace fixes what it answers. -/
structure NodeTrace where
  bchainInfo : Except RpcError Unit
  node : WalletNode
  minerNewAddress : String
  gen101 : List String
  listUnspent : List Utxo
  traderNewAddress : String
  sendResp : SendResult
  getTx : GetTxResult
  mined1 : List String
  getBlock : String → Block
  inputTx : Tx
  traderInfo : String → AddressInfo
  minerInfo : String → AddressInfo

/-- Everything `main` has in scope once the confirmed transaction is located
(lines 115-151): the pinned UTXO, the send's txid, the fee, the mined block
and the confirmed transaction found in it. -/
structure RunData where
  viable : Utxo
  txidTransfer : String
  fee : Int
  block : Block
  confirmedTx : Tx
  deriving DecidableEq

/-- The values `main` writes to `../out.txt`, in source-variable naming
(amounts are the binary64 BTC values the source carries; the fee is the native
signed satoshi amount). -/
structure Report where
  txid : String
  miner_in_addr : String
  miner_in_amount : ℚ
  trader_out_addr : String
  trader_amount : ℚ
  miner_change_addr : String
  miner_amount : ℚ
  fee : Int
  height : Nat
  block_hash : String
  deriving DecidableEq

/-! ### Helpers from the source -/

/-- Rust `Option::unwrap`: a `None` aborts the process with a panic. -/
def unwrapO {α : Type} (o : Option α) (msg : String) : Except Failure α :=
  match o with
  | some a => .ok a
  | none => .error (.panicked msg)

/-- Rust `?` on an RPC result: an `Err` propagates out of `main` as a returned
error (not a panic). -/
def liftRpc {α : Type} (r : Except RpcError α) : Except Failure α :=
  match r with
  | .ok a => .ok a
  | .error e => .error (.rpc e)

/-- Containment of one character list in another, by structural scan. -/
def listContains (needle : List Char) : List Char → Bool
  | [] => needle.isEmpty
  | c :: cs => needle.isPrefixOf (c :: cs) || listContains needle cs

/-- Bool test for `e.to_string().contains("Path does not exist")`. -/
def strContains (hay needle : String) : Bool :=
  listContains needle.data hay.data

/-- The guard of the source's create branch: a `JsonRpc` error whose display
text contains `"Path does not exist"` (main.rs lines 79-81); any other error
kind or text fails the guard. -/
def isPathNotExist (e : RpcError) : Bool :=
  match e with
  | .jsonRpc msg => strContains msg "Path does not exist"
  | .other _ => false

/-- Source `load_or_create_wallet` (main.rs lines 74-87): try `load_wallet`; on a
`JsonRpc` error containing `"Path does not exist"`, call `create_wallet` with
the four optional parameters defaulted to `None`; return any other error. -/
def load_or_create_wallet (name : String) (rpc : WalletNode) :
    Except RpcError LoadWalletResult :=
  match rpc.load name with
  | .ok wallet => .ok wallet
  | .error e =>
      if isPathNotExist e then rpc.create name none none none none
      else .error e

/-- Source `script_to_addr` (main.rs lines 53-55): derive the Regtest address of a
script, `unwrap`ping the library result (panic when no address form exists). -/
def script_to_addr (script : Script) : Except Failure String :=
  unwrapO script.regtestAddr "script_to_addr: Address::from_script failed"

/-- Source `is_mine` (main.rs lines 58-61): derive the script's address, query
`get_address_info` against the given wallet, and `unwrap` the optional
`is_mine` field (panic when the flag is absent). -/
def is_mine (info : String → AddressInfo) (script : Script) :
    Except Failure Bool :=
  match script_to_addr script with
  | .error f => .error f
  | .ok addr => unwrapO (info addr).is_mine "is_mine: address info lacks is_mine"

/-- Rust `Iterator::find` with a predicate that can abort the whole run (the
source's closures call `is_mine`, which can panic): the first element on which
the predicate fails aborts; otherwise the first `true` element is returned. -/
def findE {α : Type} (p : α → Except Failure Bool) : List α → Except Failure (Option α)
  | [] => .ok none
  | x :: xs =>
      match p x with
      | .error f => .error f
      | .ok true => .ok (some x)
      | .ok false => findE p xs

/-- Source expression `confirmed_tx.output.iter().find(.. is_mine ..).unwrap()`
(main.rs lines 162-166 and 171-175). -/
def findIsMineU (info : String → AddressInfo) (outs : List TxOut) :
    Except Failure TxOut :=
  match findE (fun o => is_mine info o.script_pubkey) outs with
  | .error f => .error f
  | .ok none => .error (.panicked "find owned output: unwrap of None")
  | .ok (some o) => .ok o

/-- The source's `send` helper (main.rs lines 27-50): the argument object it
builds (one recipient at the float BTC amount, `null` conf-target, estimate
mode and fee rate, inputs pinned to the caller's txid+vout), paired with its
result: `assert!(send_result.complete)` panics on an incomplete send,
otherwise the node's txid string is returned. -/
def send (addr : String) (amt : Nat) (txid : String) (vout : Nat)
    (resp : SendResult) : SendArgs × Except Failure String :=
  ({ recipients := [(addr, toBtc amt)]
     conf_target := none
     estimate_mode := none
     fee_rate := none
     inputs := [(txid, vout)] },
   if resp.complete then .ok resp.txid
   else .error (.panicked "assertion failed: send_result.complete"))

/-- Miner-input extraction (main.rs lines 157-159): read the source
transaction's output at the pinned vout (`unwrap` on out-of-range), derive its
address, take its value as the float BTC amount.  Its type shows it performs
no ownership query. -/
def extractMinerInput (input_tx : Tx) (vout : Nat) :
    Except Failure (String × ℚ) :=
  match unwrapO (input_tx.output.get? vout) "output_spent: unwrap of None" with
  | .error f => .error f
  | .ok output_spent =>
      match script_to_addr output_spent.script_pubkey with
      | .error f => .error f
      | .ok addr => .ok (addr, toBtc output_spent.value)

/-! ### The pipeline, staged in program order -/

/-- Lines 97-102: `get_blockchain_info()?`, then create-or-load the Trader
and Miner wallets (each `?`-propagated). -/
def stage0 (t : NodeTrace) : Except Failure Unit := do
  let _ ← liftRpc t.bchainInfo
  let _ ← liftRpc (load_or_create_wallet "Trader" t.node)
  let _ ← liftRpc (load_or_create_wallet "Miner" t.node)
  pure ()

/-- The source's funding-selection predicate (line 116):
`u.amount.to_btc() > 20.0`. -/
def viablePred (u : Utxo) : Bool := decide ((20 : ℚ) < toBtc u.amount)

/-- Lines 108-116: fresh miner address, mine 101 blocks, list unspent outputs
and `unwrap` the first whose float BTC amount exceeds 20.0. -/
def pickViable (t : NodeTrace) : Except Failure Utxo := do
  let _ ← stage0 t
  let _minerAddress := t.minerNewAddress
  let _blocks := t.gen101
  unwrapO (t.listUnspent.find? viablePred) "viable utxo: unwrap of None"

/-- Data in scope after `get_block` (line 144). -/
structure PreData where
  viable : Utxo
  txhash : String
  fee : Int
  block : Block
  deriving DecidableEq

/-- Lines 119-144: trader address, `send` 20 BTC pinned to the selected UTXO,
fetch the wallet transaction and `unwrap` its fee, mine one block
(`mined[0]` panics when empty), fetch that block. -/
def locateBlock (t : NodeTrace) : Except Failure PreData := do
  let viable ← pickViable t
  let txhash ← (send t.traderNewAddress (20 * 10 ^ 8) viable.txid viable.vout t.sendResp).2
  let fee ← unwrapO t.getTx.fee "tx fee: unwrap of None"
  let mined0 ← unwrapO (t.mined1.get? 0) "mined block hash: index out of bounds"
  pure { viable := viable, txhash := txhash, fee := fee, block := t.getBlock mined0 }

/-- Lines 147-151: scan the mined block's transaction list for the send's
txid, `unwrap`ping absence. -/
def runCore (t : NodeTrace) : Except Failure RunData := do
  let p ← locateBlock t
  let confirmedTx ← unwrapO (p.block.txdata.find? (fun tx => tx.txid == p.txhash))
    "confirmed tx not found in block: unwrap of None"
  pure { viable := p.viable, txidTransfer := p.txhash, fee := p.fee,
         block := p.block, confirmedTx := confirmedTx }

/-- Lines 154-190 without the file writes: attribute the miner input, the
trader output, the miner change, and extract the BIP34 height, producing the
values the report lines display. -/
def runMain (t : NodeTrace) : Except Failure Report := do
  let d ← runCore t
  let minerIn ← extractMinerInput t.inputTx d.viable.vout
  let trader_out ← findIsMineU t.traderInfo d.confirmedTx.output
  let trader_out_addr ← script_to_addr trader_out.script_pubkey
  let miner_change ← findIsMineU t.minerInfo d.confirmedTx.output
  let miner_change_addr ← script_to_addr miner_change.script_pubkey
  let height ← unwrapO d.block.bip34Height "bip34_block_height: unwrap of Err"
  pure { txid := d.confirmedTx.txid
         miner_in_addr := minerIn.1
         miner_in_amount := minerIn.2
         trader_out_addr := trader_out_addr
         trader_amount := toBtc trader_out.value
         miner_change_addr := miner_change_addr
         miner_amount := toBtc miner_change.value
         fee := d.fee
         height := height
         block_hash := d.block.block_hash }

/-! ### The report file -/

/-- One written line, as the displayed value it carries (the source writes
each value bare, with no label). -/
inductive OutLine where
  | ofTxid (t : String)
  | ofAddr (a : String)
  | ofAmount (q : ℚ)
  | ofFee (f : Int)
  | ofHeight (h : Nat)
  | ofHash (h : String)
  deriving DecidableEq

/-- The ten lines main.rs lines 181-190 write, in source order. -/
def outLines (r : Report) : List OutLine :=
  [.ofTxid r.txid, .ofAddr r.miner_in_addr, .ofAmount r.miner_in_amount,
   .ofAddr r.trader_out_addr, .ofAmount r.trader_amount,
   .ofAddr r.miner_change_addr, .ofAmount r.miner_amount,
   .ofFee r.fee, .ofHeight r.height, .ofHash r.block_hash]

/-- The file contents produced by the ten `writeln!` calls when the write of
line `i` succeeds iff `sink i`: each `writeln!` result is *discarded* by the
source (`#![allow(unused)]` silences the lint), so a failed write skips its
line and execution continues with the next write. -/
def writeLines (sink : Nat → Bool) : Nat → List OutLine → List OutLine
  | _, [] => []
  | i, l :: ls => if sink i then l :: writeLines sink (i + 1) ls
                  else writeLines sink (i + 1) ls

/-- Whole-program observable: `main`'s return value and the final contents of
`../out.txt`.  `File::create` truncates, so on a run reaching the write stage
the prior contents are discarded; on an earlier failure the file is untouched.
`main` ends in `Ok(())` regardless of the `writeln!` outcomes. -/
def mainOut (t : NodeTrace) (prior : List OutLine) (sink : Nat → Bool) :
    Except Failure Unit × List OutLine :=
  match runMain t with
  | .error e => (.error e, prior)
  | .ok r => (.ok (), writeLines sink 0 (outLines r))

/-! ### Spec-modelled node wallet store

Modelled from the spec: the Node Gateway's wallet persistence is outside this
repository (spec section 6: `ensure_wallet_loaded` signals "not found"
distinctly; loading succeeds once a wallet exists).  A state is the set of
existing wallets; loading a missing wallet fails with a JSON-RPC error whose
text contains "Path does not exist"; `create_wallet` adds the wallet. -/

structure NodeWalletState where
  wallets : List String
  deriving DecidableEq

/-- Modelled from the spec: the wallet-lifecycle responses of a node in state
`st`. -/
def specNode (st : NodeWalletState) : WalletNode where
  load := fun n =>
    if st.wallets.contains n then .ok ⟨n, none⟩
    else .error (.jsonRpc ("Wallet file verification failed. Failed to load database path '" ++ n ++ "'. Path does not exist."))
  create := fun n _ _ _ _ => .ok ⟨n, none⟩

/-- Modelled from the spec: one provisioner invocation against the stateful
node — the source's `load_or_create_wallet` run against `specNode st`,
together with the state it leaves (create persists the wallet). -/
def ensureWallet (st : NodeWalletState) (name : String) :
    Except RpcError LoadWalletResult × NodeWalletState :=
  (load_or_create_wallet name (specNode st),
   if st.wallets.contains name then st else ⟨name :: st.wallets⟩)

/-! ### Concrete node traces -/

/-- A node whose wallets load without error. -/
def okNode : WalletNode where
  load := fun n => .ok ⟨n, none⟩
  create := fun n _ _ _ _ => .ok ⟨n, none⟩

/-- Trader-receipt output of the happy-path confirmed transaction: 20 BTC. -/
def okOut0 : TxOut := ⟨2000000000, ⟨some "traderaddr"⟩⟩

/-- Miner-change output of the happy-path confirmed transaction. -/
def okOut1 : TxOut := ⟨2999997180, ⟨some "minerchange"⟩⟩

/-- The happy-path confirmed transaction: trader receipt then miner change. -/
def okCtx : Tx := ⟨"sendtx", [okOut0, okOut1]⟩

/-- Coinbase of the confirming block. -/
def okCb : Tx := ⟨"coinbase2", [⟨5000002820, ⟨some "mineraddr"⟩⟩]⟩

/-- The confirming block of the happy path. -/
def okBlock : Block := ⟨[okCb, okCtx], some 102, "blk1"⟩

/-- Happy-path trace: one 50 BTC coinbase UTXO, a complete send, the
confirmed transaction in the mined block with a trader output and a miner
change output, disjoint wallet ownership. -/
def tOk : NodeTrace where
  bchainInfo := .ok ()
  node := okNode
  minerNewAddress := "mineraddr"
  gen101 := []
  listUnspent := [⟨"coinbase1", 0, 5000000000⟩]
  traderNewAddress := "traderaddr"
  sendResp := ⟨true, "sendtx"⟩
  getTx := ⟨some (-2820)⟩
  mined1 := ["blk1"]
  getBlock := fun _ => okBlock
  inputTx := ⟨"coinbase1", [⟨5000000000, ⟨some "minersrc"⟩⟩]⟩
  traderInfo := fun a => ⟨some (a == "traderaddr")⟩
  minerInfo := fun a => ⟨some (a == "mineraddr" || a == "minerchange" || a == "minersrc")⟩

/-- The report the happy path produces. -/
def rOk : Report where
  txid := "sendtx"
  miner_in_addr := "minersrc"
  miner_in_amount := toBtc 5000000000
  trader_out_addr := "traderaddr"
  trader_amount := toBtc 2000000000
  miner_change_addr := "minerchange"
  miner_amount := toBtc 2999997180
  fee := -2820
  height := 102
  block_hash := "blk1"

/-- A confirmed transaction with a single output owned by both wallets. -/
def dupOut : TxOut := ⟨2000000000, ⟨some "bothaddr"⟩⟩

/-- Trace identical to the happy path except the confirmed transaction has
exactly one output, whose address both wallets own. -/
def tDup : NodeTrace :=
  { tOk with
    getBlock := fun _ => ⟨[⟨"sendtx", [dupOut]⟩], some 102, "blk1"⟩
    traderInfo := fun a => ⟨some (a == "bothaddr")⟩
    minerInfo := fun a => ⟨some (a == "bothaddr" || a == "minersrc")⟩ }

/-- The report `tDup` produces: trader receipt and miner change are the same
output. -/
def rDup : Report where
  txid := "sendtx"
  miner_in_addr := "minersrc"
  miner_in_amount := toBtc 5000000000
  trader_out_addr := "bothaddr"
  trader_amount := toBtc 2000000000
  miner_change_addr := "bothaddr"
  miner_amount := toBtc 2000000000
  fee := -2820
  height := 102
  block_hash := "blk1"

/-- Happy-path trace whose spent output is 20.1 BTC — an amount whose exact
value `201/10` is not a binary64 number. -/
def tFrac : NodeTrace :=
  { tOk with
    listUnspent := [⟨"coinbase1", 0, 2010000000⟩]
    inputTx := ⟨"coinbase1", [⟨2010000000, ⟨some "minersrc"⟩⟩]⟩ }

/-- The report `tFrac` produces. -/
def rFrac : Report :=
  { rOk with miner_in_amount := toBtc 2010000000 }

/-- Trace whose unspent outputs are all at or below 20 BTC. -/
def tPoor : NodeTrace :=
  { tOk with listUnspent := [⟨"coinbase1", 0, 2000000000⟩, ⟨"coinbase3", 0, 1999999999⟩] }

/-- Trace whose mined block does not contain the send's transaction. -/
def tNoFind : NodeTrace :=
  { tOk with getBlock := fun _ => ⟨[okCb], some 102, "blk1"⟩ }

/-- Trace whose confirmed transaction starts with an output whose script has
no address form; its second output is trader-owned. -/
def tBad : NodeTrace :=
  { tOk with getBlock := fun _ => ⟨[⟨"sendtx", [⟨1000, ⟨none⟩⟩, okOut0]⟩], some 102, "blk1"⟩ }

/-- Trace whose confirmed transaction starts with an output whose
address-info answer lacks the `is_mine` flag; its second output is
trader-owned. -/
def tNoFlag : NodeTrace :=
  { tOk with
    getBlock := fun _ => ⟨[⟨"sendtx", [⟨1000, ⟨some "flagless"⟩⟩, okOut0]⟩], some 102, "blk1"⟩
    traderInfo := fun a => if a == "flagless" then ⟨none⟩ else ⟨some (a == "traderaddr")⟩ }

/-- Trace whose wallet loads fail with an error that is not a
"Path does not exist" condition. -/
def tWalletErr : NodeTrace :=
  { tOk with node := { load := fun _ => .error (.jsonRpc "wallet corrupted"),
                       create := fun n _ _ _ _ => .ok ⟨n, none⟩ } }

example : runMain tOk = .ok rOk := by decide
example : runMain tDup = .ok rDup := by decide
example : runMain tFrac = .ok rFrac := by decide
example : runMain tPoor = .error (.panicked "viable utxo: unwrap of None") := by decide
example : runMain tNoFind =
    .error (.panicked "confirmed tx not found in block: unwrap of None") := by decide
example : runMain tBad =
    .error (.panicked "script_to_addr: Address::from_script failed") := by decide
example : runMain tNoFlag =
    .error (.panicked "is_mine: address info lacks is_mine") := by decide
example : runMain tWalletErr = .error (.rpc (.jsonRpc "wallet corrupted")) := by decide

/-! ### Generic inversion lemmas -/

theorem bind_ok_iff {ε α β : Type} (x : Except ε α) (f : α → Except ε β) (b : β) :
    (x >>= f) = .ok b ↔ ∃ a, x = .ok a ∧ f a = .ok b := by
  cases x <;> simp [Bind.bind, Except.bind]

theorem bind_err_iff {ε α β : Type} (x : Except ε α) (f : α → Except ε β) (e : ε) :
    (x >>= f) = .error e ↔ x = .error e ∨ ∃ a, x = .ok a ∧ f a = .error e := by
  cases x <;> simp [Bind.bind, Except.bind]

theorem err_bind {ε α β : Type} (e : ε) (f : α → Except ε β) :
    ((Except.error e : Except ε α) >>= f) = .error e := rfl

theorem unwrapO_ok_iff {α : Type} (o : Option α) (msg : String) (a : α) :
    unwrapO o msg = .ok a ↔ o = some a := by
  cases o <;> simp [unwrapO]

theorem unwrapO_none {α : Type} (msg : String) :
    unwrapO (none : Option α) msg = .error (.panicked msg) := rfl

theorem liftRpc_ok_iff {α : Type} (r : Except RpcError α) (a : α) :
    liftRpc r = .ok a ↔ r = .ok a := by
  cases r <;> simp [liftRpc]

/-- Success of `List.find?` characterised positionally: the hit is in the list,
satisfies the predicate, and everything before it refutes the predicate. -/
theorem find?_first {α : Type} (p : α → Bool) :
    ∀ (xs : List α) (x : α), xs.find? p = some x →
      ∃ i, xs.get? i = some x ∧ p x = true ∧
        ∀ j, j < i → ∃ y, xs.get? j = some y ∧ p y = false := by
  intro xs
  induction xs with
  | nil => intro x h; simp at h
  | cons a as ih =>
    intro x h
    cases hp : p a with
    | true =>
      rw [List.find?_cons_of_pos _ hp] at h
      injection h with hax
      subst hax
      exact ⟨0, rfl, hp, fun j hj => absurd hj (by omega)⟩
    | false =>
      rw [List.find?_cons_of_neg _ (by simp [hp])] at h
      obtain ⟨i, hget, hpx, hprev⟩ := ih x h
      refine ⟨i + 1, by simpa using hget, hpx, ?_⟩
      intro j hj
      cases j with
      | zero => exact ⟨a, rfl, hp⟩
      | succ k =>
        obtain ⟨y, hy, hpy⟩ := hprev k (by omega)
        exact ⟨y, by simpa using hy, hpy⟩

/-- Success of `findE` characterised positionally. -/
theorem findE_ok_some {α : Type} (p : α → Except Failure Bool) :
    ∀ (xs : List α) (x : α), findE p xs = .ok (some x) →
      ∃ i, xs.get? i = some x ∧ p x = .ok true ∧
        ∀ j, j < i → ∃ y, xs.get? j = some y ∧ p y = .ok false := by
  intro xs
  induction xs with
  | nil => intro x h; simp [findE] at h
  | cons a as ih =>
    intro x h
    cases hp : p a with
    | error f => simp [findE, hp] at h
    | ok b =>
      cases b with
      | true =>
        simp only [findE, hp] at h
        injection h with hsome
        injection hsome with hax
        subst hax
        exact ⟨0, rfl, hp, fun j hj => absurd hj (by omega)⟩
      | false =>
        simp only [findE, hp] at h
        obtain ⟨i, hget, hpx, hprev⟩ := ih x h
        refine ⟨i + 1, by simpa using hget, hpx, ?_⟩
        intro j hj
        cases j with
        | zero => exact ⟨a, rfl, hp⟩
        | succ k =>
          obtain ⟨y, hy, hpy⟩ := hprev k (by omega)
          exact ⟨y, by simpa using hy, hpy⟩

/-- A panicking predicate aborts `findE` (the element is reached, not
skipped): if every earlier element tests `ok false` and the predicate fails
on the element at `i`, the whole scan returns that failure. -/
theorem findE_err_at {α : Type} (p : α → Except Failure Bool) :
    ∀ (xs : List α) (i : Nat) (x : α) (f : Failure), xs.get? i = some x →
      (∀ j, j < i → ∃ y, xs.get? j = some y ∧ p y = .ok false) →
      p x = .error f → findE p xs = .error f := by
  intro xs
  induction xs with
  | nil => intro i x f h; simp at h
  | cons a as ih =>
    intro i x f hget hprev hpx
    cases i with
    | zero =>
      simp at hget
      subst hget
      simp [findE, hpx]
    | succ n =>
      have ha : p a = .ok false := by
        obtain ⟨y, hy, hpy⟩ := hprev 0 (by omega)
        simp at hy; subst hy; exact hpy
      simp only [findE, ha]
      exact ih n x f (by simpa using hget)
        (fun j hj => by
          obtain ⟨y, hy, hpy⟩ := hprev (j + 1) (by omega)
          exact ⟨y, by simpa using hy, hpy⟩) hpx

theorem findIsMineU_ok_iff (info : String → AddressInfo) (outs : List TxOut) (o : TxOut) :
    findIsMineU info outs = .ok o ↔
      findE (fun x => is_mine info x.script_pubkey) outs = .ok (some o) := by
  unfold findIsMineU
  cases h : findE (fun x => is_mine info x.script_pubkey) outs with
  | error f => simp
  | ok oo => cases oo <;> simp

/-! ### Stage inversions for the pipeline -/

theorem locateBlock_err {t : NodeTrace} {e : Failure} (h : pickViable t = .error e) :
    locateBlock t = .error e := by
  unfold locateBlock; rw [h]; rfl

theorem runCore_err {t : NodeTrace} {e : Failure} (h : locateBlock t = .error e) :
    runCore t = .error e := by
  unfold runCore; rw [h]; rfl

theorem runMain_err {t : NodeTrace} {e : Failure} (h : runCore t = .error e) :
    runMain t = .error e := by
  unfold runMain; rw [h]; rfl

theorem pickViable_ok_inv {t : NodeTrace} {u : Utxo} (h : pickViable t = .ok u) :
    t.listUnspent.find? viablePred = some u := by
  unfold pickViable at h
  rw [bind_ok_iff] at h
  obtain ⟨a, ha, h⟩ := h
  rwa [unwrapO_ok_iff] at h

theorem pickViable_err_of_none {t : NodeTrace} (h0 : stage0 t = .ok ())
    (h : t.listUnspent.find? viablePred = none) :
    pickViable t = .error (.panicked "viable utxo: unwrap of None") := by
  unfold pickViable
  rw [h0]
  show unwrapO (t.listUnspent.find? viablePred) _ = _
  rw [h, unwrapO_none]

theorem locateBlock_ok_inv {t : NodeTrace} {p : PreData} (h : locateBlock t = .ok p) :
    pickViable t = .ok p.viable ∧
    (send t.traderNewAddress (20 * 10 ^ 8) p.viable.txid p.viable.vout t.sendResp).2 =
      .ok p.txhash ∧
    t.getTx.fee = some p.fee ∧
    ∃ m0, t.mined1.get? 0 = some m0 ∧ p.block = t.getBlock m0 := by
  unfold locateBlock at h
  rw [bind_ok_iff] at h
  obtain ⟨v, hv, h⟩ := h
  rw [bind_ok_iff] at h
  obtain ⟨tx, htx, h⟩ := h
  rw [bind_ok_iff] at h
  obtain ⟨fe, hfe, h⟩ := h
  rw [bind_ok_iff] at h
  obtain ⟨m0, hm0, h⟩ := h
  rw [unwrapO_ok_iff] at hfe hm0
  have hpure : Except.ok (⟨v, tx, fe, t.getBlock m0⟩ : PreData) =
      (Except.ok p : Except Failure PreData) := h
  injection hpure with hh
  subst hh
  exact ⟨hv, htx, hfe, m0, hm0, rfl⟩

theorem runCore_ok_inv {t : NodeTrace} {d : RunData} (h : runCore t = .ok d) :
    locateBlock t = .ok { viable := d.viable, txhash := d.txidTransfer,
                          fee := d.fee, block := d.block } ∧
    d.block.txdata.find? (fun tx => tx.txid == d.txidTransfer) = some d.confirmedTx := by
  unfold runCore at h
  rw [bind_ok_iff] at h
  obtain ⟨p, hp, h⟩ := h
  rw [bind_ok_iff] at h
  obtain ⟨ctx, hctx, h⟩ := h
  rw [unwrapO_ok_iff] at hctx
  have hpure : Except.ok (⟨p.viable, p.txhash, p.fee, p.block, ctx⟩ : RunData) =
      (Except.ok d : Except Failure RunData) := h
  injection hpure with hh
  subst hh
  exact ⟨hp, hctx⟩

theorem runMain_ok_inv {t : NodeTrace} {r : Report} (h : runMain t = .ok r) :
    ∃ d trader_out miner_change,
      runCore t = .ok d ∧
      extractMinerInput t.inputTx d.viable.vout = .ok (r.miner_in_addr, r.miner_in_amount) ∧
      findIsMineU t.traderInfo d.confirmedTx.output = .ok trader_out ∧
      script_to_addr trader_out.script_pubkey = .ok r.trader_out_addr ∧
      r.trader_amount = toBtc trader_out.value ∧
      findIsMineU t.minerInfo d.confirmedTx.output = .ok miner_change ∧
      script_to_addr miner_change.script_pubkey = .ok r.miner_change_addr ∧
      r.miner_amount = toBtc miner_change.value ∧
      d.block.bip34Height = some r.height ∧
      r.txid = d.confirmedTx.txid ∧ r.fee = d.fee ∧
      r.block_hash = d.block.block_hash := by
  unfold runMain at h
  rw [bind_ok_iff] at h
  obtain ⟨d, hd, h⟩ := h
  rw [bind_ok_iff] at h
  obtain ⟨mi, hmi, h⟩ := h
  rw [bind_ok_iff] at h
  obtain ⟨tro, htro, h⟩ := h
  rw [bind_ok_iff] at h
  obtain ⟨troa, htroa, h⟩ := h
  rw [bind_ok_iff] at h
  obtain ⟨mc, hmc, h⟩ := h
  rw [bind_ok_iff] at h
  obtain ⟨mca, hmca, h⟩ := h
  rw [bind_ok_iff] at h
  obtain ⟨ht, hht, h⟩ := h
  rw [unwrapO_ok_iff] at hht
  have hpure : Except.ok (⟨d.confirmedTx.txid, mi.1, mi.2, troa, toBtc tro.value,
      mca, toBtc mc.value, d.fee, ht, d.block.block_hash⟩ : Report) =
      (Except.ok r : Except Failure Report) := h
  injection hpure with hh
  subst hh
  exact ⟨d, tro, mc, hd, hmi, htro, htroa, rfl, hmc, hmca, rfl, hht, rfl, rfl, rfl⟩

/-! ### Helper lemmas about the provisioner -/

theorem locw_ok {name : String} {rpc : WalletNode} {w : LoadWalletResult}
    (h : rpc.load name = .ok w) : load_or_create_wallet name rpc = .ok w := by
  unfold load_or_create_wallet; rw [h]

theorem locw_other_err {name : String} {rpc : WalletNode} {e : RpcError}
    (h : rpc.load name = .error e) (hm : isPathNotExist e = false) :
    load_or_create_wallet name rpc = .error e := by
  unfold load_or_create_wallet; rw [h]; simp [hm]

theorem locw_create {name : String} {rpc : WalletNode} {e : RpcError}
    (h : rpc.load name = .error e) (hm : isPathNotExist e = true) :
    load_or_create_wallet name rpc = rpc.create name none none none none := by
  unfold load_or_create_wallet; rw [h]; simp [hm]

theorem stage0_err_trader {t : NodeTrace} {e : RpcError} (hb : t.bchainInfo = .ok ())
    (h : load_or_create_wallet "Trader" t.node = .error e) :
    stage0 t = .error (.rpc e) := by
  unfold stage0; rw [hb, h]; rfl

theorem pickViable_err_stage0 {t : NodeTrace} {e : Failure} (h : stage0 t = .error e) :
    pickViable t = .error e := by
  unfold pickViable; rw [h]; rfl

/-- A node with no wallets: every load reports the missing-path condition. -/
def missingNode : WalletNode where
  load := fun _ => .error (.jsonRpc "Wallet file verification failed. Failed to load database path. Path does not exist.")
  create := fun n _ _ _ _ => .ok ⟨n, none⟩

/-! ### Claims -/

/-- Claim C5: the provisioner first attempts to load the wallet; only a load
failure with a "does not exist" condition triggers creation (with all four
optional parameters defaulted); any other load failure is returned as an
error and aborts the run; and a second invocation once the wallet exists
succeeds via load without re-creation. -/
theorem claim_C5 :
    (∀ (name : String) (rpc : WalletNode) (w : LoadWalletResult),
      rpc.load name = .ok w → load_or_create_wallet name rpc = .ok w) ∧
    (∀ (name : String) (rpc : WalletNode) (e : RpcError),
      rpc.load name = .error e → isPathNotExist e = false →
      load_or_create_wallet name rpc = .error e) ∧
    (∀ (name : String) (rpc : WalletNode) (e : RpcError),
      rpc.load name = .error e → isPathNotExist e = true →
      load_or_create_wallet name rpc = rpc.create name none none none none) ∧
    (∀ (t : NodeTrace) (e : RpcError), t.bchainInfo = .ok () →
      t.node.load "Trader" = .error e → isPathNotExist e = false →
      runMain t = .error (.rpc e)) ∧
    (∀ (st : NodeWalletState) (n : String),
      (specNode (ensureWallet st n).2).load n = .ok ⟨n, none⟩ ∧
      ensureWallet (ensureWallet st n).2 n = (.ok ⟨n, none⟩, (ensureWallet st n).2) ∧
      (∀ c, load_or_create_wallet n
        { load := (specNode (ensureWallet st n).2).load, create := c } = .ok ⟨n, none⟩)) := by
  refine ⟨fun name rpc w h => locw_ok h,
          fun name rpc e h hm => locw_other_err h hm,
          fun name rpc e h hm => locw_create h hm,
          fun t e hb hl hm =>
            runMain_err (runCore_err (locateBlock_err (pickViable_err_stage0
              (stage0_err_trader hb (locw_other_err hl hm))))),
          fun st n => ?_⟩
  have hm2 : n ∈ (ensureWallet st n).2.wallets := by
    unfold ensureWallet
    by_cases hm : n ∈ st.wallets
    · simp [hm]
    · simp [hm]
  have hgen : ∀ st' : NodeWalletState, n ∈ st'.wallets →
      ensureWallet st' n = (.ok ⟨n, none⟩, st') := by
    intro st' hm
    have hl : (specNode st').load n = .ok ⟨n, none⟩ := by simp [specNode, hm]
    unfold ensureWallet
    rw [locw_ok hl, if_pos (by simpa using hm)]
  have hload : (specNode (ensureWallet st n).2).load n = .ok ⟨n, none⟩ := by
    simp [specNode, hm2]
  exact ⟨hload, hgen _ hm2, fun c => locw_ok hload⟩

/-- Witness for C5 at concrete inputs: load succeeds and is returned; a
non-"does not exist" failure propagates (also through the whole pipeline); the
missing-path failure routes to `create_wallet`; re-provisioning an existing
wallet loads it. -/
theorem claim_C5_witness :
    load_or_create_wallet "Miner" okNode = .ok ⟨"Miner", none⟩ ∧
    load_or_create_wallet "Trader" tWalletErr.node = .error (.jsonRpc "wallet corrupted") ∧
    load_or_create_wallet "Miner" missingNode = missingNode.create "Miner" none none none none ∧
    runMain tWalletErr = .error (.rpc (.jsonRpc "wallet corrupted")) ∧
    ensureWallet (ensureWallet ⟨[]⟩ "Miner").2 "Miner" =
      (.ok ⟨"Miner", none⟩, (ensureWallet ⟨[]⟩ "Miner").2) := by
  refine ⟨claim_C5.1 "Miner" okNode ⟨"Miner", none⟩ (by decide),
          claim_C5.2.1 "Trader" tWalletErr.node (.jsonRpc "wallet corrupted")
            (by decide) (by decide),
          claim_C5.2.2.1 "Miner" missingNode
            (.jsonRpc "Wallet file verification failed. Failed to load database path. Path does not exist.")
            (by decide) (by decide),
          claim_C5.2.2.2.1 tWalletErr (.jsonRpc "wallet corrupted")
            (by decide) (by decide) (by decide),
          (claim_C5.2.2.2.2 ⟨[]⟩ "Miner").2.1⟩

/-- Claim C4: the send request pins the inputs to exactly the caller's
txid+vout, names exactly one recipient at the transfer amount, leaves
conf-target, estimate mode and fee rate unspecified, and an incomplete send
panics — a txid is returned only from a complete send. -/
theorem claim_C4 (addr : String) (amt : Nat) (txid : String) (vout : Nat)
    (resp : SendResult) :
    (send addr amt txid vout resp).1.inputs = [(txid, vout)] ∧
    (send addr amt txid vout resp).1.recipients = [(addr, toBtc amt)] ∧
    (send addr amt txid vout resp).1.conf_target = none ∧
    (send addr amt txid vout resp).1.estimate_mode = none ∧
    (send addr amt txid vout resp).1.fee_rate = none ∧
    (∀ s, (send addr amt txid vout resp).2 = .ok s →
      resp.complete = true ∧ s = resp.txid) ∧
    (resp.complete = false → (send addr amt txid vout resp).2 =
      .error (.panicked "assertion failed: send_result.complete")) := by
  refine ⟨rfl, rfl, rfl, rfl, rfl, ?_, ?_⟩
  · intro s hs
    unfold send at hs
    cases hc : resp.complete with
    | true => simp [hc] at hs; exact ⟨rfl, hs.symm⟩
    | false => simp [hc] at hs
  · intro hc
    unfold send
    simp [hc]

/-- Witness for C4 at concrete inputs: the pinned input set, single recipient
and null options of a concrete request, the txid flowing out of a complete
response, and the panic on an incomplete response. -/
theorem claim_C4_witness :
    (send "traderaddr" (20 * 10 ^ 8) "coinbase1" 0 ⟨true, "sendtx"⟩).1.inputs =
      [("coinbase1", 0)] ∧
    (send "traderaddr" (20 * 10 ^ 8) "coinbase1" 0 ⟨true, "sendtx"⟩).1.recipients =
      [("traderaddr", toBtc (20 * 10 ^ 8))] ∧
    (send "traderaddr" (20 * 10 ^ 8) "coinbase1" 0 ⟨true, "sendtx"⟩).1.conf_target = none ∧
    (send "traderaddr" (20 * 10 ^ 8) "coinbase1" 0 ⟨true, "sendtx"⟩).1.fee_rate = none ∧
    ((true : Bool) = true ∧ "sendtx" = (⟨true, "sendtx"⟩ : SendResult).txid) ∧
    (send "traderaddr" (20 * 10 ^ 8) "coinbase1" 0 ⟨false, "ignored"⟩).2 =
      .error (.panicked "assertion failed: send_result.complete") := by
  have h1 := claim_C4 "traderaddr" (20 * 10 ^ 8) "coinbase1" 0 ⟨true, "sendtx"⟩
  have h2 := claim_C4 "traderaddr" (20 * 10 ^ 8) "coinbase1" 0 ⟨false, "ignored"⟩
  exact ⟨h1.1, h1.2.1, h1.2.2.1, h1.2.2.2.2.1,
         h1.2.2.2.2.2.1 "sendtx" (by decide), h2.2.2.2.2.2.2 rfl⟩

/-- Claim C8: on a run that reaches the report stage, the writer's output
discards any prior file contents and consists of exactly ten bare lines in
the fixed order txid, miner input address, miner input amount, trader output
address, trader output amount, miner change address, miner change amount,
fee, BIP34 block height, block hash. -/
theorem claim_C8 (t : NodeTrace) (r : Report) (prior prior2 : List OutLine)
    (h : runMain t = .ok r) :
    mainOut t prior (fun _ => true) =
      (.ok (), [.ofTxid r.txid, .ofAddr r.miner_in_addr, .ofAmount r.miner_in_amount,
        .ofAddr r.trader_out_addr, .ofAmount r.trader_amount,
        .ofAddr r.miner_change_addr, .ofAmount r.miner_amount,
        .ofFee r.fee, .ofHeight r.height, .ofHash r.block_hash]) ∧
    (mainOut t prior (fun _ => true)).2 = (mainOut t prior2 (fun _ => true)).2 ∧
    ((mainOut t prior (fun _ => true)).2).length = 10 := by
  unfold mainOut
  rw [h]
  refine ⟨?_, rfl, ?_⟩
  · simp [writeLines, outLines]
  · simp [writeLines, outLines]

/-- Witness for C8: the happy-path run writes exactly the ten lines of its
report, irrespective of the file's prior contents. -/
theorem claim_C8_witness :
    mainOut tOk [] (fun _ => true) =
      (.ok (), [.ofTxid rOk.txid, .ofAddr rOk.miner_in_addr,
        .ofAmount rOk.miner_in_amount, .ofAddr rOk.trader_out_addr,
        .ofAmount rOk.trader_amount, .ofAddr rOk.miner_change_addr,
        .ofAmount rOk.miner_amount, .ofFee rOk.fee, .ofHeight rOk.height,
        .ofHash rOk.block_hash]) ∧
    (mainOut tOk [] (fun _ => true)).2 = (mainOut tOk [.ofAddr "stale"] (fun _ => true)).2 ∧
    ((mainOut tOk [] (fun _ => true)).2).length = 10 := by
  have h := claim_C8 tOk rOk [] [.ofAddr "stale"] (by decide)
  exact ⟨h.1, h.2.1, h.2.2⟩

/-- Claim C9 is a code bug: the source discards every `writeln!` result
(`#![allow(unused)]` suppresses the lint), so a failure while writing a
report line is not surfaced — here the write of line 3 (miner input amount)
fails, the file ends up with nine lines, yet `main` still returns `Ok(())`. -/
theorem claim_C9_bug :
    (mainOut tOk [] (fun i => !(i == 2))).1 = .ok () ∧
    ((mainOut tOk [] (fun i => !(i == 2))).2).length = 9 ∧
    (mainOut tOk [] (fun i => !(i == 2))).2 ≠ outLines rOk := by
  refine ⟨by decide, by decide, by decide⟩

theorem viablePred_true_iff (u : Utxo) : viablePred u = true ↔ 2 * 10 ^ 9 < u.amount := by
  unfold viablePred
  rw [decide_eq_true_eq]
  exact toBtc_gt20_iff u.amount

theorem viablePred_false_iff (u : Utxo) : viablePred u = false ↔ u.amount ≤ 2 * 10 ^ 9 := by
  rw [← Bool.not_eq_true, viablePred_true_iff]
  omega

/-- Claim C3: the funding selector returns the first listed unspent output
whose amount strictly exceeds 20 BTC — never one at or below the threshold —
and when no listed output exceeds 20 BTC the pipeline aborts with the
selection panic, before the send is ever consulted (the outcome is the same
for every possible send response). -/
theorem claim_C3 :
    (∀ (t : NodeTrace) (u : Utxo), pickViable t = .ok u →
      ∃ i, t.listUnspent.get? i = some u ∧ 2 * 10 ^ 9 < u.amount ∧
        ∀ j, j < i → ∃ y, t.listUnspent.get? j = some y ∧ y.amount ≤ 2 * 10 ^ 9) ∧
    (∀ t : NodeTrace, stage0 t = .ok () →
      (∀ u ∈ t.listUnspent, u.amount ≤ 2 * 10 ^ 9) →
      (∀ resp : SendResult, runMain { t with sendResp := resp } =
        .error (.panicked "viable utxo: unwrap of None")) ∧
      runMain t = .error (.panicked "viable utxo: unwrap of None")) := by
  constructor
  · intro t u h
    obtain ⟨i, hget, hpu, hprev⟩ := find?_first viablePred _ _ (pickViable_ok_inv h)
    refine ⟨i, hget, (viablePred_true_iff u).mp hpu, fun j hj => ?_⟩
    obtain ⟨y, hy, hpy⟩ := hprev j hj
    exact ⟨y, hy, (viablePred_false_iff y).mp hpy⟩
  · intro t hst hall
    have hnone : t.listUnspent.find? viablePred = none := by
      rw [List.find?_eq_none]
      intro x hx
      simp [(viablePred_false_iff x).mpr (hall x hx)]
    have habort : runMain t = .error (.panicked "viable utxo: unwrap of None") :=
      runMain_err (runCore_err (locateBlock_err (pickViable_err_of_none hst hnone)))
    refine ⟨fun resp => ?_, habort⟩
    have hst2 : stage0 { t with sendResp := resp } = .ok () := hst
    have hnone2 : ({ t with sendResp := resp } : NodeTrace).listUnspent.find? viablePred =
      none := hnone
    exact runMain_err (runCore_err (locateBlock_err (pickViable_err_of_none hst2 hnone2)))

/-- Witness for C3: on the happy path the 50 BTC coinbase output at index 0
is selected; on the under-funded trace every listed output is at or below
20 BTC (one exactly at 20 BTC) and the pipeline aborts with the selection
panic. -/
theorem claim_C3_witness :
    (∃ i, tOk.listUnspent.get? i = some ⟨"coinbase1", 0, 5000000000⟩ ∧
      2 * 10 ^ 9 < (⟨"coinbase1", 0, 5000000000⟩ : Utxo).amount ∧
      ∀ j, j < i → ∃ y, tOk.listUnspent.get? j = some y ∧ y.amount ≤ 2 * 10 ^ 9) ∧
    runMain tPoor = .error (.panicked "viable utxo: unwrap of None") := by
  exact ⟨claim_C3.1 tOk ⟨"coinbase1", 0, 5000000000⟩ (by decide),
         (claim_C3.2 tPoor (by decide) (by decide)).2⟩

/-- The run data of the happy path. -/
def dOk : RunData := ⟨⟨"coinbase1", 0, 5000000000⟩, "sendtx", -2820, okBlock, okCtx⟩

/-- The pre-block data of the trace whose block misses the transaction. -/
def pNoFind : PreData :=
  ⟨⟨"coinbase1", 0, 5000000000⟩, "sendtx", -2820, ⟨[okCb], some 102, "blk1"⟩⟩

/-- Claim C6: the transaction located in the mined block has exactly the id
the settlement send returned, and when no transaction of that block carries
the target id the pipeline aborts with the block-scan panic instead of
proceeding. -/
theorem claim_C6 :
    (∀ (t : NodeTrace) (d : RunData), runCore t = .ok d →
      d.confirmedTx.txid = d.txidTransfer) ∧
    (∀ (t : NodeTrace) (p : PreData), locateBlock t = .ok p →
      (∀ tx ∈ p.block.txdata, tx.txid ≠ p.txhash) →
      runMain t = .error (.panicked "confirmed tx not found in block: unwrap of None")) := by
  constructor
  · intro t d h
    have hfind := (runCore_ok_inv h).2
    have := List.find?_some hfind
    simpa using this
  · intro t p hlb hnot
    have hnone : p.block.txdata.find? (fun tx => tx.txid == p.txhash) = none := by
      rw [List.find?_eq_none]
      intro x hx
      simpa using hnot x hx
    have hcore : runCore t =
        .error (.panicked "confirmed tx not found in block: unwrap of None") := by
      unfold runCore
      rw [hlb]
      show (unwrapO (p.block.txdata.find? (fun tx => tx.txid == p.txhash)) _ >>= _) = _
      rw [hnone, unwrapO_none]
      rfl
    exact runMain_err hcore

/-- Witness for C6: on the happy path the located transaction's id is the
send's id; on the missing-transaction trace the pipeline aborts with the
block-scan panic. -/
theorem claim_C6_witness :
    dOk.confirmedTx.txid = dOk.txidTransfer ∧
    runMain tNoFind =
      .error (.panicked "confirmed tx not found in block: unwrap of None") := by
  exact ⟨claim_C6.1 tOk dOk (by decide),
         claim_C6.2 tNoFind pNoFind (by decide) (by decide)⟩

theorem extractMinerInput_ok_inv {itx : Tx} {vout : Nat} {a : String} {q : ℚ}
    (h : extractMinerInput itx vout = .ok (a, q)) :
    ∃ o, itx.output.get? vout = some o ∧
      o.script_pubkey.regtestAddr = some a ∧ q = toBtc o.value := by
  unfold extractMinerInput at h
  cases hg : itx.output.get? vout with
  | none => rw [hg] at h; simp [unwrapO] at h
  | some o =>
    rw [hg] at h
    simp only [unwrapO] at h
    cases ha : o.script_pubkey.regtestAddr with
    | none => simp [script_to_addr, unwrapO, ha] at h
    | some addr =>
      simp only [script_to_addr, unwrapO, ha] at h
      injection h with hpair
      injection hpair with h1 h2
      exact ⟨o, rfl, by rw [ha, h1], h2.symm⟩

/-- Claim C7: on every successful run the miner-input record comes from the
source transaction's output at the pinned vout — its address derived from
that output's locking script, its amount from that output's value — by
`extractMinerInput`, a function of the raw transaction and index alone (no
ownership oracle in its signature); the same vout is the one pinned in the
send request's input list. -/
theorem claim_C7 (t : NodeTrace) (r : Report) (h : runMain t = .ok r) :
    ∃ d : RunData, runCore t = .ok d ∧
      extractMinerInput t.inputTx d.viable.vout = .ok (r.miner_in_addr, r.miner_in_amount) ∧
      (∃ o : TxOut, t.inputTx.output.get? d.viable.vout = some o ∧
        o.script_pubkey.regtestAddr = some r.miner_in_addr ∧
        r.miner_in_amount = toBtc o.value) ∧
      (send t.traderNewAddress (20 * 10 ^ 8) d.viable.txid d.viable.vout
        t.sendResp).1.inputs = [(d.viable.txid, d.viable.vout)] := by
  obtain ⟨d, tro, mc, hd, hmi, _⟩ := runMain_ok_inv h
  exact ⟨d, hd, hmi, extractMinerInput_ok_inv hmi, rfl⟩

/-- Witness for C7 on the happy path: the miner-input fields come from the
pinned output 0 of the 50 BTC coinbase transaction. -/
theorem claim_C7_witness :
    ∃ d : RunData, runCore tOk = .ok d ∧
      extractMinerInput tOk.inputTx d.viable.vout =
        .ok (rOk.miner_in_addr, rOk.miner_in_amount) ∧
      (∃ o : TxOut, tOk.inputTx.output.get? d.viable.vout = some o ∧
        o.script_pubkey.regtestAddr = some rOk.miner_in_addr ∧
        rOk.miner_in_amount = toBtc o.value) ∧
      (send tOk.traderNewAddress (20 * 10 ^ 8) d.viable.txid d.viable.vout
        tOk.sendResp).1.inputs = [(d.viable.txid, d.viable.vout)] :=
  claim_C7 tOk rOk (by decide)

/-- Claim C2 is falsified on the code: with a 20.1 BTC spent output the run
succeeds, but the amount carried into the report record is the binary64 value
`to_btc` produced, which differs from the native value `2010000000 / 10^8`
BTC — a lossy conversion before the formatting stage. -/
theorem claim_C2_counterexample :
    runMain tFrac = .ok rFrac ∧
    tFrac.inputTx.output.get? 0 = some ⟨2010000000, ⟨some "minersrc"⟩⟩ ∧
    rFrac.miner_in_amount ≠ mkRat 2010000000 (10 ^ 8) ∧
    mkRat 2010000000 (10 ^ 8) = (2010000000 : ℚ) / 10 ^ 8 := by
  refine ⟨by decide, by decide, by decide, ?_⟩
  rw [Rat.mkRat_eq_div]
  norm_num

/-- Claim C2 (amended): the three output-side amounts are converted at
extraction time to the binary64 BTC values of the respective native satoshi
values (`to_btc`), and those converted values — not the native ones — are what
reaches the formatting stage; only the fee is carried natively. -/
theorem claim_C2_amended (t : NodeTrace) (r : Report) (h : runMain t = .ok r) :
    ∃ d : RunData, runCore t = .ok d ∧
      (∃ o, t.inputTx.output.get? d.viable.vout = some o ∧
        r.miner_in_amount = toBtc o.value) ∧
      (∃ o, findIsMineU t.traderInfo d.confirmedTx.output = .ok o ∧
        r.trader_amount = toBtc o.value) ∧
      (∃ o, findIsMineU t.minerInfo d.confirmedTx.output = .ok o ∧
        r.miner_amount = toBtc o.value) ∧
      t.getTx.fee = some r.fee := by
  obtain ⟨d, tro, mc, hd, hmi, htro, htroa, htra, hmc, hmca, hma, hht, htxid, hfee, hbh⟩ :=
    runMain_ok_inv h
  obtain ⟨o, hgo, hao, hqo⟩ := extractMinerInput_ok_inv hmi
  have hfee2 : t.getTx.fee = some d.fee := ((runCore_ok_inv hd).1 |> locateBlock_ok_inv).2.2.1
  exact ⟨d, hd, ⟨o, hgo, hqo⟩, ⟨tro, htro, htra⟩, ⟨mc, hmc, hma⟩, by rw [hfee]; exact hfee2⟩

/-- Witness for the amended C2 on the happy path. -/
theorem claim_C2_amended_witness :
    ∃ d : RunData, runCore tOk = .ok d ∧
      (∃ o, tOk.inputTx.output.get? d.viable.vout = some o ∧
        rOk.miner_in_amount = toBtc o.value) ∧
      (∃ o, findIsMineU tOk.traderInfo d.confirmedTx.output = .ok o ∧
        rOk.trader_amount = toBtc o.value) ∧
      (∃ o, findIsMineU tOk.minerInfo d.confirmedTx.output = .ok o ∧
        rOk.miner_amount = toBtc o.value) ∧
      tOk.getTx.fee = some rOk.fee :=
  claim_C2_amended tOk rOk (by decide)

/-- The C1 invariant as the spec words it, about a pair of selected outputs:
two distinct indices of the same transaction's output list whose pair is a
strict subset of the outputs (some third index exists). -/
def specAttrInvariant (outs : List TxOut) (tr mn : TxOut) : Prop :=
  ∃ i j, i ≠ j ∧ outs.get? i = some tr ∧ outs.get? j = some mn ∧
    ∃ k, k < outs.length ∧ k ≠ i ∧ k ≠ j

theorem get?_pair_inv {α : Type} {a b x : α} {i : Nat} (h : [a, b].get? i = some x) :
    (i = 0 ∧ x = a) ∨ (i = 1 ∧ x = b) := by
  match i, h with
  | 0, h => injection h with h; exact Or.inl ⟨rfl, h.symm⟩
  | 1, h => injection h with h; exact Or.inr ⟨rfl, h.symm⟩
  | n + 2, h => simp at h

theorem get?_single_inv {α : Type} {a x : α} {i : Nat} (h : [a].get? i = some x) :
    i = 0 ∧ x = a := by
  match i, h with
  | 0, h => injection h with h; exact ⟨rfl, h.symm⟩
  | n + 1, h => simp at h

/-- Claim C1 is falsified on the code twice over: on the ordinary two-output
settlement the two selections are distinct but exhaust the outputs (no strict
subset); and on a single-output transaction owned by both wallets the run
still reaches attribution with both selections at the same index (no
distinctness). -/
theorem claim_C1_counterexample :
    (runMain tOk = .ok rOk ∧
     findIsMineU tOk.traderInfo okCtx.output = .ok okOut0 ∧
     findIsMineU tOk.minerInfo okCtx.output = .ok okOut1 ∧
     ¬ specAttrInvariant okCtx.output okOut0 okOut1) ∧
    (runMain tDup = .ok rDup ∧
     findIsMineU tDup.traderInfo [dupOut] = .ok dupOut ∧
     findIsMineU tDup.minerInfo [dupOut] = .ok dupOut ∧
     ¬ specAttrInvariant [dupOut] dupOut dupOut) := by
  refine ⟨⟨by decide, by decide, by decide, ?_⟩, by decide, by decide, by decide, ?_⟩
  · rintro ⟨i, j, hij, hi, hj, k, hk, hki, hkj⟩
    have hi2 : [okOut0, okOut1].get? i = some okOut0 := hi
    have hj2 : [okOut0, okOut1].get? j = some okOut1 := hj
    have hk2 : k < 2 := hk
    rcases get?_pair_inv hi2 with ⟨hi0, _⟩ | ⟨_, hbad⟩
    · rcases get?_pair_inv hj2 with ⟨_, hbad⟩ | ⟨hj1, _⟩
      · exact absurd hbad (by decide)
      · subst hi0; subst hj1; omega
    · exact absurd hbad (by decide)
  · rintro ⟨i, j, hij, hi, hj, -⟩
    obtain ⟨hi0, -⟩ := get?_single_inv hi
    obtain ⟨hj0, -⟩ := get?_single_inv hj
    exact hij (hi0.trans hj0.symm)

/-- Claim C1 (amended): on every run that reaches attribution, the trader
receipt and the miner change are outputs of the same confirmed transaction —
each the first output its wallet's ownership query accepts — and, provided no
output of that transaction is owned by both wallets, their indices are
distinct; the pair is a subset of the outputs but not necessarily a strict
one. -/
theorem claim_C1_amended (t : NodeTrace) (r : Report) (h : runMain t = .ok r) :
    ∃ (d : RunData) (o1 o2 : TxOut) (i j : Nat),
      runCore t = .ok d ∧
      findIsMineU t.traderInfo d.confirmedTx.output = .ok o1 ∧
      findIsMineU t.minerInfo d.confirmedTx.output = .ok o2 ∧
      d.confirmedTx.output.get? i = some o1 ∧
      d.confirmedTx.output.get? j = some o2 ∧
      is_mine t.traderInfo o1.script_pubkey = .ok true ∧
      is_mine t.minerInfo o2.script_pubkey = .ok true ∧
      (∀ k, k < i → ∃ y, d.confirmedTx.output.get? k = some y ∧
        is_mine t.traderInfo y.script_pubkey = .ok false) ∧
      (∀ k, k < j → ∃ y, d.confirmedTx.output.get? k = some y ∧
        is_mine t.minerInfo y.script_pubkey = .ok false) ∧
      ((∀ o ∈ d.confirmedTx.output,
        ¬(is_mine t.traderInfo o.script_pubkey = .ok true ∧
          is_mine t.minerInfo o.script_pubkey = .ok true)) → i ≠ j) := by
  obtain ⟨d, tro, mc, hd, hmi, htro, htroa, htra, hmc, hmca, hma, hht, htxid, hfee, hbh⟩ :=
    runMain_ok_inv h
  obtain ⟨i, hgi, hpi, hprevi⟩ := findE_ok_some _ _ _ ((findIsMineU_ok_iff _ _ _).mp htro)
  obtain ⟨j, hgj, hpj, hprevj⟩ := findE_ok_some _ _ _ ((findIsMineU_ok_iff _ _ _).mp hmc)
  refine ⟨d, tro, mc, i, j, hd, htro, hmc, hgi, hgj, hpi, hpj, hprevi, hprevj, ?_⟩
  intro hdisj heq
  subst heq
  rw [hgi] at hgj
  injection hgj with hET
  exact hdisj tro (List.get?_mem hgi) ⟨hpi, by rw [hET]; exact hpj⟩

/-- Witness for the amended C1 on the happy path. -/
theorem claim_C1_amended_witness :
    ∃ (d : RunData) (o1 o2 : TxOut) (i j : Nat),
      runCore tOk = .ok d ∧
      findIsMineU tOk.traderInfo d.confirmedTx.output = .ok o1 ∧
      findIsMineU tOk.minerInfo d.confirmedTx.output = .ok o2 ∧
      d.confirmedTx.output.get? i = some o1 ∧
      d.confirmedTx.output.get? j = some o2 ∧
      is_mine tOk.traderInfo o1.script_pubkey = .ok true ∧
      is_mine tOk.minerInfo o2.script_pubkey = .ok true ∧
      (∀ k, k < i → ∃ y, d.confirmedTx.output.get? k = some y ∧
        is_mine tOk.traderInfo y.script_pubkey = .ok false) ∧
      (∀ k, k < j → ∃ y, d.confirmedTx.output.get? k = some y ∧
        is_mine tOk.minerInfo y.script_pubkey = .ok false) ∧
      ((∀ o ∈ d.confirmedTx.output,
        ¬(is_mine tOk.traderInfo o.script_pubkey = .ok true ∧
          is_mine tOk.minerInfo o.script_pubkey = .ok true)) → i ≠ j) :=
  claim_C1_amended tOk rOk (by decide)

/-! ### Helpers for C10 -/

theorem extractMinerInput_err_panic {itx : Tx} {vout : Nat} {e : Failure}
    (h : extractMinerInput itx vout = .error e) : ∃ m, e = .panicked m := by
  unfold extractMinerInput at h
  cases hg : itx.output.get? vout with
  | none =>
    rw [hg] at h
    simp only [unwrapO] at h
    injection h with h
    exact ⟨_, h.symm⟩
  | some o =>
    rw [hg] at h
    simp only [unwrapO] at h
    cases ha : o.script_pubkey.regtestAddr with
    | none =>
      simp only [script_to_addr, unwrapO, ha] at h
      injection h with h
      exact ⟨_, h.symm⟩
    | some a => simp [script_to_addr, unwrapO, ha] at h

theorem is_mine_err_noaddr {info : String → AddressInfo} {s : Script}
    (h : s.regtestAddr = none) :
    is_mine info s = .error (.panicked "script_to_addr: Address::from_script failed") := by
  unfold is_mine script_to_addr
  rw [h]
  rfl

theorem is_mine_err_noflag {info : String → AddressInfo} {s : Script} {a : String}
    (ha : s.regtestAddr = some a) (hf : (info a).is_mine = none) :
    is_mine info s = .error (.panicked "is_mine: address info lacks is_mine") := by
  unfold is_mine script_to_addr
  rw [ha]
  show unwrapO (info a).is_mine _ = _
  rw [hf]
  rfl

theorem findIsMineU_err {info : String → AddressInfo} {outs : List TxOut} {f : Failure}
    (h : findE (fun o => is_mine info o.script_pubkey) outs = .error f) :
    findIsMineU info outs = .error f := by
  unfold findIsMineU
  rw [h]

theorem runMain_err_after_core {t : NodeTrace} {d : RunData} {e : Failure}
    (hc : runCore t = .ok d)
    (hm : extractMinerInput t.inputTx d.viable.vout = .error e) :
    runMain t = .error e := by
  unfold runMain
  rw [hc]
  show (extractMinerInput t.inputTx d.viable.vout >>= _) = _
  rw [hm]
  rfl

theorem runMain_err_at_traderfind {t : NodeTrace} {d : RunData} {mi : String × ℚ}
    {e : Failure} (hc : runCore t = .ok d)
    (hmi : extractMinerInput t.inputTx d.viable.vout = .ok mi)
    (hf : findIsMineU t.traderInfo d.confirmedTx.output = .error e) :
    runMain t = .error e := by
  unfold runMain
  rw [hc]
  show (extractMinerInput t.inputTx d.viable.vout >>= _) = _
  rw [hmi]
  show (findIsMineU t.traderInfo d.confirmedTx.output >>= _) = _
  rw [hf]
  rfl

/-- Claim C10: address derivation and ownership classification panic — they
do not skip the output and do not return an error value — whenever an
examined output's script has no Regtest address form or its address-info
answer lacks the ownership flag; in particular a run whose confirmed
transaction leads with such an output aborts with a panic even though a later
output would match. -/
theorem claim_C10 :
    (∀ s : Script, s.regtestAddr = none →
      script_to_addr s = .error (.panicked "script_to_addr: Address::from_script failed")) ∧
    (∀ (info : String → AddressInfo) (s : Script) (a : String),
      s.regtestAddr = some a → (info a).is_mine = none →
      is_mine info s = .error (.panicked "is_mine: address info lacks is_mine")) ∧
    (∀ (info : String → AddressInfo) (outs : List TxOut) (i : Nat) (x : TxOut) (f : Failure),
      outs.get? i = some x →
      (∀ j, j < i → ∃ y, outs.get? j = some y ∧
        is_mine info y.script_pubkey = .ok false) →
      is_mine info x.script_pubkey = .error f →
      findIsMineU info outs = .error f) ∧
    (∀ (t : NodeTrace) (d : RunData) (o : TxOut), runCore t = .ok d →
      d.confirmedTx.output.get? 0 = some o →
      (o.script_pubkey.regtestAddr = none ∨
        (∃ a, o.script_pubkey.regtestAddr = some a ∧ (t.traderInfo a).is_mine = none)) →
      ∃ m, runMain t = .error (.panicked m)) := by
  refine ⟨fun s h => by unfold script_to_addr; rw [h]; rfl,
          fun info s a ha hf => is_mine_err_noflag ha hf,
          fun info outs i x f hget hprev hpx =>
            findIsMineU_err (findE_err_at _ outs i x f hget hprev hpx),
          fun t d o hc hg hcase => ?_⟩
  cases hmi : extractMinerInput t.inputTx d.viable.vout with
  | error e =>
    obtain ⟨m, hm⟩ := extractMinerInput_err_panic hmi
    subst hm
    exact ⟨m, runMain_err_after_core hc hmi⟩
  | ok mi =>
    have hpo : ∃ m0, is_mine t.traderInfo o.script_pubkey = .error (.panicked m0) := by
      rcases hcase with hnone | ⟨a, ha, hf⟩
      · exact ⟨_, is_mine_err_noaddr hnone⟩
      · exact ⟨_, is_mine_err_noflag ha hf⟩
    obtain ⟨m0, hpo⟩ := hpo
    have hfe : findE (fun x => is_mine t.traderInfo x.script_pubkey)
        d.confirmedTx.output = .error (.panicked m0) :=
      findE_err_at _ _ 0 o _ hg (fun j hj => absurd hj (by omega)) hpo
    exact ⟨m0, runMain_err_at_traderfind hc hmi (findIsMineU_err hfe)⟩

/-- The run data of the trace whose confirmed transaction leads with an
address-less script. -/
def dBad : RunData :=
  ⟨⟨"coinbase1", 0, 5000000000⟩, "sendtx", -2820,
   ⟨[⟨"sendtx", [⟨1000, ⟨none⟩⟩, okOut0]⟩], some 102, "blk1"⟩,
   ⟨"sendtx", [⟨1000, ⟨none⟩⟩, okOut0]⟩⟩

/-- The run data of the trace whose confirmed transaction leads with an
output whose address info lacks the ownership flag. -/
def dFlag : RunData :=
  ⟨⟨"coinbase1", 0, 5000000000⟩, "sendtx", -2820,
   ⟨[⟨"sendtx", [⟨1000, ⟨some "flagless"⟩⟩, okOut0]⟩], some 102, "blk1"⟩,
   ⟨"sendtx", [⟨1000, ⟨some "flagless"⟩⟩, okOut0]⟩⟩

/-- Witness for C10: the concrete panics of the address-less script and the
flag-less address info, the non-skipping scan abort, and the whole-pipeline
panics on both traces (whose second output is trader-owned yet never
reached). -/
theorem claim_C10_witness :
    script_to_addr ⟨none⟩ =
      .error (.panicked "script_to_addr: Address::from_script failed") ∧
    is_mine tNoFlag.traderInfo ⟨some "flagless"⟩ =
      .error (.panicked "is_mine: address info lacks is_mine") ∧
    findIsMineU tBad.traderInfo [⟨1000, ⟨none⟩⟩, okOut0] =
      .error (.panicked "script_to_addr: Address::from_script failed") ∧
    (∃ m, runMain tBad = .error (.panicked m)) ∧
    (∃ m, runMain tNoFlag = .error (.panicked m)) := by
  refine ⟨claim_C10.1 ⟨none⟩ rfl,
          claim_C10.2.1 tNoFlag.traderInfo ⟨some "flagless"⟩ "flagless" rfl (by decide),
          claim_C10.2.2.1 tBad.traderInfo [⟨1000, ⟨none⟩⟩, okOut0] 0 ⟨1000, ⟨none⟩⟩
            (.panicked "script_to_addr: Address::from_script failed")
            (by decide) (fun j hj => absurd hj (by omega)) (by decide),
          claim_C10.2.2.2 tBad dBad ⟨1000, ⟨none⟩⟩ (by decide) (by decide) (Or.inl rfl),
          claim_C10.2.2.2 tNoFlag dFlag ⟨1000, ⟨some "flagless"⟩⟩ (by decide) (by decide)
            (Or.inr ⟨"flagless", rfl, by decide⟩)⟩

end Capstone
